import Mathlib

set_option maxHeartbeats 1000000

/-!
Shallow embedding of `deploy_chronicle_rules.py`: a pipeline that lists the
rules already registered in Chronicle, lists `.yaral` rule files in a
Bitbucket directory, and verifies/uploads the rules that are not yet
present.  HTTP traffic is modelled by explicit response values handed to
each function; JSON bodies are modelled by the decoded Python value.
-/

/-- A decoded Python value, as produced by `response.json()`.  `pynone` is
Python `None`; the JSON body `null` decodes to Python `None`, so it is
identified with `pynone`. -/
inductive PyVal where
  | pynone
  | pybool (b : Bool)
  | pyint (n : Int)
  | pystr (s : String)
  | pylist (xs : List PyVal)
  | pydict (fields : List (String × PyVal))

/-- The Python test `response_data is not None`, negated: whether a decoded
value is `None`. -/
def PyVal.isNone : PyVal → Bool
  | .pynone => true
  | _ => false

/-- One HTTP response as seen by `_make_api_request` in the non-stream
case: its status code, whether `response.content` is empty, and the result
of `response.json()` (`Option.none` models a `json.JSONDecodeError`). -/
structure HttpResponse where
  status : Nat
  bodyEmpty : Bool
  decodedBody : Option PyVal

/-- Model of `requests.Response.raise_for_status`: it raises exactly for statuses in
the 4xx/5xx range. -/
def raiseForStatus (status : Nat) : Bool :=
  decide (400 ≤ status) && decide (status < 600)

/-- Model of `_make_api_request` (src lines 42-73), non-stream case.  A
`Option.none` argument models a transport-level `RequestException`
(including the `HTTPError` raised by `raise_for_status`).  Returns the
Python value the function returns; every error path returns `None`, i.e.
`pynone`.  When the status differs from `expected_status` the function
logs and calls `raise_for_status`, which raises (caught below, returning
`None`) only for 4xx/5xx statuses; for any other unexpected status
execution falls through to the normal body handling (line 56). -/
def make_api_request (expectedStatus : Nat) (r : Option HttpResponse) : PyVal :=
  match r with
  | Option.none => PyVal.pynone
  | Option.some resp =>
    if resp.status ≠ expectedStatus ∧ raiseForStatus resp.status = true then PyVal.pynone
    else if resp.status = 204 ∨ resp.bodyEmpty = true then PyVal.pynone
    else
      match resp.decodedBody with
      | Option.none => PyVal.pynone
      | Option.some v => v

/-- Model of `verify_rule` (src lines 180-204): posts the rule text with
`expected_status=200` and reports success exactly when
`_make_api_request` returned a value that `is not None`.  The rule name
and text only affect the request payload, so the outcome is a function of
the response alone. -/
def verify_rule (r : Option HttpResponse) : Bool :=
  !(make_api_request 200 r).isNone

/-- Whether the character list `hay` starts with `needle`. -/
def listStartsWith : List Char → List Char → Bool
  | _, [] => true
  | [], _ :: _ => false
  | x :: xs, y :: ys => x == y && listStartsWith xs ys

/-- Whether `needle` occurs as a contiguous subsequence of `hay`. -/
def listContainsSeq (needle : List Char) : List Char → Bool
  | [] => needle.isEmpty
  | x :: xs => listStartsWith (x :: xs) needle || listContainsSeq needle xs

/-- Python's `k in v` membership test as applied to a decoded JSON body in
`upload_rule` (src line 222): key lookup for a dict, element equality for
a list, substring search for a string.  Other decoded values would raise
`TypeError` in Python; they do not occur in the responses this call
receives and are mapped to `false`. -/
def pyContains (k : String) (v : PyVal) : Bool :=
  match v with
  | .pydict fields => fields.any (fun p => p.1 == k)
  | .pylist xs =>
      xs.any (fun x => match x with
        | .pystr s => s == k
        | _ => false)
  | .pystr s => listContainsSeq k.data s.data
  | _ => false

/-- Model of `upload_rule` (src lines 207-229): posts the rule with
`expected_status=200`; success requires a non-`None` decoded body that
contains a `ruleId` or `id` field. -/
def upload_rule (r : Option HttpResponse) : Bool :=
  let response_data := make_api_request 200 r
  !response_data.isNone && (pyContains "ruleId" response_data || pyContains "id" response_data)

/-! ### Repository File Fetcher (`get_files_from_bitbucket`, src lines 76-123) -/

/-- A rule candidate as built on src line 108:
`{'name': filename_stem, 'text': rule_text, 'path': file_path}`. -/
structure RuleCandidate where
  name : String
  text : String
  path : String
deriving DecidableEq, Repr

/-- One entry of a Bitbucket directory-listing page, keeping the fields the
code reads: `item.get('type')` and `item.get('path', '')`. -/
structure BbEntry where
  type : String
  path : String
deriving DecidableEq, Repr

/-- One successfully decoded Bitbucket directory-listing page: its
`values` entries and its `next` link (`response_data.get('next')`). -/
structure BbPage where
  values : List BbEntry
  next : Option String
deriving DecidableEq, Repr

/-- Truthiness of an optional string, as tested by `while list_url:` and
`if not next_page_token:`: absent and empty strings are falsy. -/
def truthyStr : Option String → Bool
  | Option.none => false
  | Option.some s => if s = "" then false else true

/-- Whether the string ends with the given suffix (`str.endswith`). -/
def strEndsWith (s suffix : String) : Bool :=
  List.isSuffixOf suffix.data s.data

/-- Split a character list at each occurrence of `sep`. -/
def splitCharList (sep : Char) : List Char → List (List Char)
  | [] => [[]]
  | c :: cs =>
    match splitCharList sep cs with
    | [] => [[]]
    | grp :: rest => if c = sep then [] :: grp :: rest else (c :: grp) :: rest

/-- Model of `Path(p).name`: the final path component.  Paths coming from the
Bitbucket API are `/`-separated without a trailing slash; empty components
are dropped the way `pathlib` normalises them. -/
def pathBaseName (p : String) : String :=
  String.mk (List.getLastD ((splitCharList '/' p.data).filter (fun g => !g.isEmpty)) [])

/-- The index of the last `.` in a character list, if any. -/
def lastDotIndex (cs : List Char) : Option Nat :=
  (List.range cs.length).foldl
    (fun acc i => if cs.getD i ' ' = '.' then Option.some i else acc) Option.none

/-- Model of `Path(n).stem` for a bare file name `n`: everything before the last
`.`, except that a leading dot or a trailing dot is not treated as an
extension separator (CPython's `0 < i < len(name) - 1` rule). -/
def stemOfName (n : String) : String :=
  match lastDotIndex n.data with
  | Option.none => n
  | Option.some i =>
    if 0 < i ∧ i + 1 < n.data.length then String.mk (n.data.take i) else n

/-- The value `filename_stem` as computed on src lines 94-96:
`Path(Path(file_path).name).stem`. -/
def pathStem (p : String) : String :=
  stemOfName (pathBaseName p)

/-- Python `str.strip()` with no argument: drop whitespace from both
ends. -/
def pyStrip (s : String) : String :=
  String.mk (((s.data.dropWhile Char.isWhitespace).reverse.dropWhile Char.isWhitespace).reverse)

/-- Outcome of the per-file raw-content request plus UTF-8 decode (src
lines 99-105): the request returned a falsy value (`fetchFailure`, src
line 116), the bytes failed to decode (`undecodable`, src line 112), or
the decoded text. -/
inductive ContentResult where
  | fetchFailure
  | undecodable
  | text (s : String)
deriving DecidableEq, Repr

/-- The body of the `for item in response_data.get('values', [])` loop
(src lines 91-117), for a single entry: the candidate it appends to
`rule_files_content`, if any.  The per-file content request is abstracted
by the `content` oracle mapping the file path to its outcome. -/
def processEntry (content : String → ContentResult) (item : BbEntry) : Option RuleCandidate :=
  if item.type = "commit_file" ∧ strEndsWith item.path ".yaral" = true then
    match content item.path with
    | ContentResult.fetchFailure => Option.none
    | ContentResult.undecodable => Option.none
    | ContentResult.text s =>
      if pyStrip s = "" then Option.none
      else Option.some (RuleCandidate.mk (pathStem item.path) s item.path)
  else Option.none

/-- The candidates one directory-listing page contributes, in entry
order. -/
def pageCandidates (content : String → ContentResult) (p : BbPage) : List RuleCandidate :=
  p.values.filterMap (processEntry content)

/-- The `while list_url:` loop of `get_files_from_bitbucket` (src lines
83-120).  `pages` is the sequence of directory-listing responses the
server returns to the successive page requests; `Option.none` models a
request for which `_make_api_request` returned `None` or a decoded body
without a `values` key (src line 87), which makes the whole function
return `None`.  After a successful page the loop continues exactly when
the page's `next` link is truthy. -/
def bbLoop (content : String → ContentResult) :
    List (Option BbPage) → List RuleCandidate → Option (List RuleCandidate)
  | [], acc => Option.some acc
  | Option.none :: _, _ => Option.none
  | Option.some p :: rest, acc =>
    if truthyStr p.next = true then bbLoop content rest (acc ++ pageCandidates content p)
    else Option.some (acc ++ pageCandidates content p)

/-- Model of `get_files_from_bitbucket` (src lines 76-123): runs the page loop
starting from an empty `rule_files_content` accumulator. -/
def get_files_from_bitbucket (content : String → ContentResult)
    (pages : List (Option BbPage)) : Option (List RuleCandidate) :=
  bbLoop content pages []

/-! ### Remote-Rule-Directory Client (`get_existing_rule_names`, src lines 128-177) -/

/-- One rule object of a Chronicle listing page, keeping the field the
code matches on: `rule.get('ruleName')` (`Option.none` when absent). -/
structure ChronicleRule where
  ruleName : Option String
deriving DecidableEq, Repr

/-- One successfully decoded Chronicle listing page: its `rules` (absent
key modelled as `[]`, matching `response_data.get('rules', [])`) and its
`nextPageToken`. -/
structure ChroniclePage where
  rules : List ChronicleRule
  nextPageToken : Option String
deriving DecidableEq, Repr

/-- The names one Chronicle page contributes: `ruleName` values that are
truthy (`if rule_name_from_api:` — absent and empty names are logged and
excluded, src lines 161-168). -/
def chroniclePageNames (p : ChroniclePage) : List String :=
  p.rules.filterMap (fun r =>
    match r.ruleName with
    | Option.none => Option.none
    | Option.some s => if s = "" then Option.none else Option.some s)

/-- The `while True:` loop of `get_existing_rule_names` (src lines
142-173).  `resps` is the sequence of listing responses the server
returns; `Option.none` models a request for which `_make_api_request`
returned `None`.  On a failed FIRST page the whole function returns
`None`; on a failed later page the loop breaks and the names gathered so
far are kept.  After a successful page the loop continues exactly when
`nextPageToken` is truthy.  The Python `set` is modelled by the list of
names added, in order; only membership is ever used. -/
def chronicleLoop : List (Option ChroniclePage) → List String → Bool → Option (List String)
  | [], acc, _ => Option.some acc
  | Option.none :: _, acc, isFirst =>
    if isFirst then Option.none else Option.some acc
  | Option.some p :: rest, acc, _ =>
    if truthyStr p.nextPageToken = true then
      chronicleLoop rest (acc ++ chroniclePageNames p) false
    else Option.some (acc ++ chroniclePageNames p)

/-- Model of `get_existing_rule_names` (src lines 128-177): runs the page loop
starting from an empty set on page 1. -/
def get_existing_rule_names (resps : List (Option ChroniclePage)) : Option (List String) :=
  chronicleLoop resps [] true

/-- Concrete 3-page Chronicle listing used to witness the pagination
claims. -/
def cpW1 : ChroniclePage := ChroniclePage.mk [ChronicleRule.mk (Option.some "r1")] (Option.some "t1")

def cpW2 : ChroniclePage := ChroniclePage.mk [ChronicleRule.mk (Option.some "r2")] (Option.some "t2")

def cpW3 : ChroniclePage := ChroniclePage.mk [ChronicleRule.mk (Option.some "r3")] Option.none

/-- Concrete 3-page Bitbucket listing used to witness the pagination
claims. -/
def bqW1 : BbPage := BbPage.mk [BbEntry.mk "commit_file" "rules/c1.yaral"] (Option.some "u1")

def bqW2 : BbPage := BbPage.mk [BbEntry.mk "commit_file" "rules/c2.yaral"] (Option.some "u2")

def bqW3 : BbPage := BbPage.mk [BbEntry.mk "commit_file" "rules/c3.yaral"] Option.none

/-- Content oracle for the witness listing: every file holds the same
non-empty rule text. -/
def contentW : String → ContentResult := fun _ => ContentResult.text "rule c"

/-! ### Sync Orchestrator (`main`, src lines 233-303) -/

/-- The five counters of the orchestration loop (src lines 258-262), in
declaration order. -/
structure Counters where
  processed : Nat
  uploaded : Nat
  skipped : Nat
  failed_verification : Nat
  failed_upload : Nat
deriving DecidableEq, Repr

/-- All counters start at zero. -/
def initCounters : Counters := Counters.mk 0 0 0 0 0

/-- One remote call the orchestration loop makes for a candidate. -/
inductive CallEvent where
  | verifyCall (name : String)
  | uploadCall (name : String)
deriving DecidableEq, Repr

/-- The body of the `for rule_data in rules_from_bitbucket` loop (src
lines 264-284) for one candidate: the updated counters and, in
chronological order, the remote calls it makes.  The verify and upload
responses are given by the oracles `vresp` and `uresp` as functions of the
candidate's name and text (the only data the requests carry); their
results feed `verify_rule` and `upload_rule` exactly as in the source. -/
def processRule (existing : List String) (vresp uresp : String → String → Option HttpResponse)
    (c : Counters) (r : RuleCandidate) : Counters × List CallEvent :=
  let c1 : Counters := Counters.mk (c.processed + 1) c.uploaded c.skipped
    c.failed_verification c.failed_upload
  if r.name ∈ existing then
    (Counters.mk c1.processed c1.uploaded (c1.skipped + 1) c1.failed_verification
      c1.failed_upload, [])
  else if verify_rule (vresp r.name r.text) = true then
    if upload_rule (uresp r.name r.text) = true then
      (Counters.mk c1.processed (c1.uploaded + 1) c1.skipped c1.failed_verification
        c1.failed_upload,
       [CallEvent.verifyCall r.name, CallEvent.uploadCall r.name])
    else
      (Counters.mk c1.processed c1.uploaded c1.skipped c1.failed_verification
        (c1.failed_upload + 1),
       [CallEvent.verifyCall r.name, CallEvent.uploadCall r.name])
  else
    (Counters.mk c1.processed c1.uploaded c1.skipped (c1.failed_verification + 1)
      c1.failed_upload,
     [CallEvent.verifyCall r.name])

/-- The orchestration loop over the remaining candidates, accumulating
counters and the chronological list of remote calls. -/
def runLoopFrom (existing : List String) (vresp uresp : String → String → Option HttpResponse)
    (c : Counters) (tr : List CallEvent) : List RuleCandidate → Counters × List CallEvent
  | [] => (c, tr)
  | r :: rs =>
    let step := processRule existing vresp uresp c r
    runLoopFrom existing vresp uresp step.1 (tr ++ step.2) rs

/-- The whole orchestration loop (src lines 264-284), started from zeroed
counters and an empty call history. -/
def runLoop (existing : List String) (vresp uresp : String → String → Option HttpResponse)
    (rules : List RuleCandidate) : Counters × List CallEvent :=
  runLoopFrom existing vresp uresp initCounters [] rules

/-- Model of `main` (src lines 233-303), returning the process exit code
(named `mainRun` here because Lean reserves `main` for executables).  Step 1
aborts with code 1 when the Chronicle listing fails; Step 2 aborts with
code 1 when the Bitbucket fetch fails and exits with code 0 when it finds
no candidates; Step 3 runs the loop; Step 4 re-queries the Chronicle
listing only for logging, with no effect on the outcome; finally the exit
code is 1 exactly when `rules_failed_verification > 0 or
rules_failed_upload > 0`. -/
def mainRun (chroniclePages : List (Option ChroniclePage)) (bbPages : List (Option BbPage))
    (content : String → ContentResult)
    (vresp uresp : String → String → Option HttpResponse) : Nat :=
  match get_existing_rule_names chroniclePages with
  | Option.none => 1
  | Option.some existing =>
    match get_files_from_bitbucket content bbPages with
    | Option.none => 1
    | Option.some rules =>
      if rules.isEmpty then 0
      else
        let c := (runLoop existing vresp uresp rules).1
        if c.failed_verification > 0 ∨ c.failed_upload > 0 then 1 else 0

/-- The sum of the four outcome buckets. -/
def counterSum (c : Counters) : Nat :=
  c.skipped + c.uploaded + c.failed_verification + c.failed_upload

/-- How many times a given remote call appears in a call history. -/
def countEvent (tr : List CallEvent) (ev : CallEvent) : Nat :=
  (tr.filter (fun x => decide (x = ev))).length

/-- A verify/upload response oracle whose responses always succeed and
carry a `ruleId`. -/
def vrespW : String → String → Option HttpResponse :=
  fun _ _ => Option.some (HttpResponse.mk 200 false
    (Option.some (PyVal.pydict [("ruleId", PyVal.pystr "id1")])))

/-! ### Theorems -/

theorem pyval_isNone_false_iff (v : PyVal) : v.isNone = false ↔ v ≠ PyVal.pynone := by
  cases v <;> simp [PyVal.isNone]

theorem verify_rule_eq (st : Nat) (be : Bool) (db : Option PyVal) :
    verify_rule (Option.some (HttpResponse.mk st be db)) =
      if st ≠ 200 ∧ raiseForStatus st = true then false
      else if st = 204 ∨ be = true then false
      else
        match db with
        | Option.none => false
        | Option.some v => !v.isNone := by
  simp only [verify_rule, make_api_request]
  split
  · rfl
  · split
    · rfl
    · cases db <;> rfl

/-- C10 counterexample: a 200 response with the non-empty, JSON-decodable
body `null` decodes to Python `None` and is reported as verification
failure, and a 201 response (unexpected status, but outside the 4xx/5xx
range that `raise_for_status` turns into an exception) with a JSON object
body is reported as verification success — both sides of the claimed
equivalence fail. -/
theorem C10_counterexample :
    verify_rule (Option.some (HttpResponse.mk 200 false (Option.some PyVal.pynone))) = false
    ∧ verify_rule (Option.some (HttpResponse.mk 201 false (Option.some (PyVal.pydict [])))) = true := by
  constructor <;> rfl

/-- C10 (amended): `verify_rule` returns success iff the request produced
a response (no transport error), whose status is not turned into an
exception by `raise_for_status` (i.e. is 200 or outside the 4xx/5xx
range), is not 204, whose body is non-empty, and whose body decodes as
JSON to a value other than `null`. -/
theorem C10_amended (r : Option HttpResponse) :
    verify_rule r = true ↔
      ∃ resp, r = Option.some resp
        ∧ ¬(resp.status ≠ 200 ∧ raiseForStatus resp.status = true)
        ∧ resp.status ≠ 204
        ∧ resp.bodyEmpty = false
        ∧ ∃ v, resp.decodedBody = Option.some v ∧ v ≠ PyVal.pynone := by
  cases r with
  | none => simp [verify_rule, make_api_request, PyVal.isNone]
  | some resp =>
    obtain ⟨st, be, db⟩ := resp
    rw [verify_rule_eq]
    constructor
    · intro h
      by_cases h1 : st ≠ 200 ∧ raiseForStatus st = true
      · rw [if_pos h1] at h; exact absurd h (by simp)
      · rw [if_neg h1] at h
        by_cases h2 : st = 204 ∨ be = true
        · rw [if_pos h2] at h; exact absurd h (by simp)
        · rw [if_neg h2] at h
          cases db with
          | none => exact absurd h (by simp)
          | some v =>
            refine ⟨HttpResponse.mk st be (Option.some v), rfl, h1, ?_, ?_, v, rfl, ?_⟩
            · intro h204; exact h2 (Or.inl h204)
            · cases be with
              | false => rfl
              | true => exact absurd (Or.inr rfl) h2
            · intro hv
              subst hv
              simp [PyVal.isNone] at h
    · rintro ⟨resp, heq, hr1, hr204, hbe, v, hdb, hv⟩
      injection heq with heq
      subst heq
      dsimp only at hr1 hr204 hbe hdb
      rw [if_neg hr1]
      have h2 : ¬(st = 204 ∨ be = true) := by
        intro hc
        rcases hc with hc | hc
        · exact hr204 hc
        · rw [hbe] at hc; exact Bool.false_ne_true hc
      rw [if_neg h2, hdb]
      cases v with
      | pynone => exact absurd rfl hv
      | pybool b => rfl
      | pyint n => rfl
      | pystr s => rfl
      | pylist xs => rfl
      | pydict fields => rfl

theorem bbLoop_all_pages_ok (content : String → ContentResult) (gps : List BbPage) :
    ∀ acc, ∃ l, bbLoop content (gps.map Option.some) acc = Option.some l := by
  induction gps with
  | nil => intro acc; exact ⟨acc, rfl⟩
  | cons p tl ih =>
    intro acc
    by_cases h : truthyStr p.next = true
    · simpa [bbLoop, h] using ih (acc ++ pageCandidates content p)
    · exact ⟨acc ++ pageCandidates content p, by simp [bbLoop, h]⟩

theorem bbLoop_reached_failure (content : String → ContentResult)
    (rest : List (Option BbPage)) (gps : List BbPage)
    (h : ∀ p ∈ gps, truthyStr p.next = true) :
    ∀ acc, bbLoop content (gps.map Option.some ++ Option.none :: rest) acc = Option.none := by
  induction gps with
  | nil => intro acc; rfl
  | cons p tl ih =>
    intro acc
    have hp : truthyStr p.next = true := h p (List.mem_cons_self p tl)
    have htl : ∀ q ∈ tl, truthyStr q.next = true := fun q hq => h q (List.mem_cons_of_mem p hq)
    simpa [bbLoop, hp] using ih htl (acc ++ pageCandidates content p)

/-- C5 counterexample: with one directory-listing page containing a good
rule file and a truthy `next` link, followed by a failing second page, the
fetch returns Failure (`None`) instead of the candidates gathered from the
first page — a later-page failure is just as fatal as a first-page
failure.  The first conjunct shows the same page on its own does produce a
candidate, so data was gathered and then discarded. -/
theorem C5_counterexample :
    get_files_from_bitbucket (fun _ => ContentResult.text "rule sample")
        [Option.some (BbPage.mk [BbEntry.mk "commit_file" "rules/a.yaral"] Option.none)]
      = Option.some [RuleCandidate.mk "a" "rule sample" "rules/a.yaral"]
    ∧ get_files_from_bitbucket (fun _ => ContentResult.text "rule sample")
        [Option.some (BbPage.mk [BbEntry.mk "commit_file" "rules/a.yaral"]
           (Option.some "https://api.bitbucket.org/page2")),
         Option.none]
      = Option.none := by
  constructor <;> rfl

/-- C5 (amended): in `get_files_from_bitbucket` a directory-listing page
failure at ANY position reached by the loop — first page or any later
page — makes the whole operation return Failure; candidates gathered from
earlier pages are discarded.  (Only the Chronicle rule listing tolerates
later-page failures.) -/
theorem C5_amended_theorem (content : String → ContentResult)
    (gps : List BbPage) (rest : List (Option BbPage))
    (h : ∀ p ∈ gps, truthyStr p.next = true) :
    get_files_from_bitbucket content (gps.map Option.some ++ Option.none :: rest)
      = Option.none :=
  bbLoop_reached_failure content rest gps h []

theorem C5_witness :
    get_files_from_bitbucket (fun _ => ContentResult.fetchFailure)
        ([BbPage.mk [] (Option.some "https://api.bitbucket.org/page2")].map Option.some
          ++ Option.none :: [])
      = Option.none :=
  C5_amended_theorem (fun _ => ContentResult.fetchFailure)
    [BbPage.mk [] (Option.some "https://api.bitbucket.org/page2")] [] (by decide)

/-- C6 counterexample: a directory-listing entry whose `type` is `"file"`
is NOT turned into a candidate — the code requires the Bitbucket type tag
`"commit_file"` (src line 92) — while an otherwise identical
`"commit_file"` entry is. -/
theorem C6_counterexample :
    processEntry (fun _ => ContentResult.text "rule sample2") (BbEntry.mk "file" "rules/b.yaral")
      = Option.none
    ∧ processEntry (fun _ => ContentResult.text "rule sample2")
        (BbEntry.mk "commit_file" "rules/b.yaral")
      = Option.some (RuleCandidate.mk "b" "rule sample2" "rules/b.yaral") := by
  constructor <;> rfl

/-- C6 (amended): provided the entry's content is fetched, decodes as
text, and is non-empty after trimming, a directory-listing entry becomes a
rule candidate exactly when its `type` field equals `"commit_file"` and
its path ends with `".yaral"`, and the candidate's name is the file's base
name without its extension (`Path(Path(path).name).stem`). -/
theorem C6_amended_theorem (content : String → ContentResult) (e : BbEntry) (s : String)
    (hc : content e.path = ContentResult.text s) (hs : pyStrip s ≠ "") :
    processEntry content e =
      (if e.type = "commit_file" ∧ strEndsWith e.path ".yaral" = true
       then Option.some (RuleCandidate.mk (pathStem e.path) s e.path)
       else Option.none) := by
  by_cases ht : e.type = "commit_file" ∧ strEndsWith e.path ".yaral" = true
  · simp only [processEntry, if_pos ht, hc, if_neg hs]
  · simp only [processEntry, if_neg ht]

theorem C6_witness :
    processEntry (fun _ => ContentResult.text "rule w") (BbEntry.mk "commit_file" "rules/w.yaral") =
      (if (BbEntry.mk "commit_file" "rules/w.yaral").type = "commit_file"
          ∧ strEndsWith (BbEntry.mk "commit_file" "rules/w.yaral").path ".yaral" = true
       then Option.some (RuleCandidate.mk (pathStem (BbEntry.mk "commit_file" "rules/w.yaral").path)
              "rule w" (BbEntry.mk "commit_file" "rules/w.yaral").path)
       else Option.none) :=
  C6_amended_theorem (fun _ => ContentResult.text "rule w")
    (BbEntry.mk "commit_file" "rules/w.yaral") "rule w" rfl (by decide)

/-- C8: for a repository file that matches the rule type and extension, a
failed content fetch, undecodable content, and content that is empty after
trimming each exclude the file from the candidate list; and as long as
every directory-listing page itself succeeds, the fetch always returns a
candidate list (never Failure), whatever the per-file content outcomes
are — the run is not aborted. -/
theorem C8_content_error_handling (content : String → ContentResult) (e : BbEntry) (s : String)
    (htype : e.type = "commit_file") (hext : strEndsWith e.path ".yaral" = true) :
    (content e.path = ContentResult.fetchFailure → processEntry content e = Option.none)
    ∧ (content e.path = ContentResult.undecodable → processEntry content e = Option.none)
    ∧ (content e.path = ContentResult.text s → pyStrip s = "" →
        processEntry content e = Option.none)
    ∧ ∀ gps : List BbPage, ∃ l,
        get_files_from_bitbucket content (gps.map Option.some) = Option.some l := by
  refine ⟨?_, ?_, ?_, ?_⟩
  · intro hc; simp only [processEntry, if_pos (And.intro htype hext), hc]
  · intro hc; simp only [processEntry, if_pos (And.intro htype hext), hc]
  · intro hc hstrip
    simp only [processEntry, if_pos (And.intro htype hext), hc, if_pos hstrip]
  · intro gps; exact bbLoop_all_pages_ok content gps []

theorem C8_witness :
    ((fun _ => ContentResult.fetchFailure : String → ContentResult) "rules/e.yaral"
        = ContentResult.fetchFailure →
      processEntry (fun _ => ContentResult.fetchFailure) (BbEntry.mk "commit_file" "rules/e.yaral")
        = Option.none)
    ∧ ((fun _ => ContentResult.fetchFailure : String → ContentResult) "rules/e.yaral"
        = ContentResult.undecodable →
      processEntry (fun _ => ContentResult.fetchFailure) (BbEntry.mk "commit_file" "rules/e.yaral")
        = Option.none)
    ∧ ((fun _ => ContentResult.fetchFailure : String → ContentResult) "rules/e.yaral"
        = ContentResult.text "  " → pyStrip "  " = "" →
      processEntry (fun _ => ContentResult.fetchFailure) (BbEntry.mk "commit_file" "rules/e.yaral")
        = Option.none)
    ∧ ∀ gps : List BbPage, ∃ l,
        get_files_from_bitbucket (fun _ => ContentResult.fetchFailure) (gps.map Option.some)
          = Option.some l :=
  C8_content_error_handling (fun _ => ContentResult.fetchFailure)
    (BbEntry.mk "commit_file" "rules/e.yaral") "  " rfl rfl

theorem chronicleLoop_later_ne_none (resps : List (Option ChroniclePage)) :
    ∀ acc, chronicleLoop resps acc false ≠ Option.none := by
  induction resps with
  | nil => intro acc h; exact Option.noConfusion h
  | cons r rest ih =>
    intro acc
    cases r with
    | none => intro h; simp [chronicleLoop] at h
    | some p =>
      by_cases ht : truthyStr p.nextPageToken = true
      · simpa [chronicleLoop, ht] using ih (acc ++ chroniclePageNames p)
      · intro h; simp [chronicleLoop, ht] at h

theorem chronicleLoop_good_then_failure (rest : List (Option ChroniclePage)) :
    ∀ gps : List ChroniclePage, (∀ p ∈ gps, truthyStr p.nextPageToken = true) →
      gps ≠ [] → ∀ acc first,
      chronicleLoop (gps.map Option.some ++ Option.none :: rest) acc first
        = Option.some (acc ++ gps.flatMap chroniclePageNames) := by
  intro gps
  induction gps with
  | nil => intro _ hne; exact absurd rfl hne
  | cons p tl ih =>
    intro h _ acc first
    have hp : truthyStr p.nextPageToken = true := h p (List.mem_cons_self p tl)
    have htl : ∀ q ∈ tl, truthyStr q.nextPageToken = true :=
      fun q hq => h q (List.mem_cons_of_mem p hq)
    cases tl with
    | nil => simp [chronicleLoop, hp]
    | cons q tl2 =>
      have step := ih htl (by simp) (acc ++ chroniclePageNames p) false
      simp only [List.map_cons, List.cons_append, chronicleLoop, hp, if_pos] at step ⊢
      rw [step]
      simp [List.flatMap_cons, List.append_assoc]

/-- C4: the Chronicle listing returns Failure (`None`) exactly when the
very first page request fails; when a page after the first fails, the loop
stops and the names gathered from the earlier pages are returned instead
of Failure.  `gps` are the successful earlier pages (each with a truthy
`nextPageToken`, so the loop keeps going until it meets the failing
request). -/
theorem C4_partial_listing (resps : List (Option ChroniclePage))
    (gps : List ChroniclePage) (rest : List (Option ChroniclePage))
    (h : ∀ p ∈ gps, truthyStr p.nextPageToken = true) :
    (get_existing_rule_names resps = Option.none ↔ resps.head? = Option.some Option.none)
    ∧ get_existing_rule_names (gps.map Option.some ++ Option.none :: rest)
        = (if gps.isEmpty then Option.none
           else Option.some (gps.flatMap chroniclePageNames)) := by
  constructor
  · cases resps with
    | nil => simp [get_existing_rule_names, chronicleLoop]
    | cons r rest2 =>
      cases r with
      | none => simp [get_existing_rule_names, chronicleLoop]
      | some p =>
        by_cases ht : truthyStr p.nextPageToken = true
        · simp only [get_existing_rule_names, chronicleLoop, ht, if_pos, List.head?_cons]
          constructor
          · intro hc
            exact absurd hc (chronicleLoop_later_ne_none rest2 ([] ++ chroniclePageNames p))
          · intro hc; exact Option.noConfusion (Option.some.inj hc)
        · simp [get_existing_rule_names, chronicleLoop, ht]
  · cases gps with
    | nil => rfl
    | cons p tl =>
      simp only [get_existing_rule_names]
      rw [chronicleLoop_good_then_failure rest (p :: tl) h (by simp) [] true]
      simp

theorem C4_witness :
    (get_existing_rule_names
        [Option.some (ChroniclePage.mk [ChronicleRule.mk (Option.some "r1")] (Option.some "tok")),
         Option.none]
      = Option.none ↔
      List.head?
        [Option.some (ChroniclePage.mk [ChronicleRule.mk (Option.some "r1")] (Option.some "tok")),
         Option.none]
        = Option.some Option.none)
    ∧ get_existing_rule_names
        ([ChroniclePage.mk [ChronicleRule.mk (Option.some "r1")] (Option.some "tok")].map Option.some
          ++ Option.none :: [])
        = (if List.isEmpty [ChroniclePage.mk [ChronicleRule.mk (Option.some "r1")] (Option.some "tok")]
           then Option.none
           else Option.some
             ([ChroniclePage.mk [ChronicleRule.mk (Option.some "r1")] (Option.some "tok")].flatMap
               chroniclePageNames)) :=
  C4_partial_listing
    [Option.some (ChroniclePage.mk [ChronicleRule.mk (Option.some "r1")] (Option.some "tok")),
     Option.none]
    [ChroniclePage.mk [ChronicleRule.mk (Option.some "r1")] (Option.some "tok")] [] (by decide)

/-- C7: each listing loop stops exactly when the page carries no truthy
next-page token/link (first two conjuncts: one loop step follows the next
link when present and stops otherwise), and a 3-page listing whose pages
all succeed yields the union of the pages' items: its name set / candidate
list is the concatenation of all three pages' contributions, and a name is
in the Chronicle result exactly when it is on one of the three pages. -/
theorem C7_pagination_termination (p1 p2 p3 : ChroniclePage) (crest : List (Option ChroniclePage))
    (content : String → ContentResult) (q1 q2 q3 : BbPage) (brest : List (Option BbPage))
    (hp1 : truthyStr p1.nextPageToken = true) (hp2 : truthyStr p2.nextPageToken = true)
    (hp3 : truthyStr p3.nextPageToken = false)
    (hq1 : truthyStr q1.next = true) (hq2 : truthyStr q2.next = true)
    (hq3 : truthyStr q3.next = false) :
    (∀ (p : ChroniclePage) (rest : List (Option ChroniclePage)) (acc : List String) (first : Bool),
      chronicleLoop (Option.some p :: rest) acc first =
        (if truthyStr p.nextPageToken = true then
          chronicleLoop rest (acc ++ chroniclePageNames p) false
         else Option.some (acc ++ chroniclePageNames p)))
    ∧ (∀ (q : BbPage) (rest : List (Option BbPage)) (acc : List RuleCandidate),
      bbLoop content (Option.some q :: rest) acc =
        (if truthyStr q.next = true then bbLoop content rest (acc ++ pageCandidates content q)
         else Option.some (acc ++ pageCandidates content q)))
    ∧ get_existing_rule_names (Option.some p1 :: Option.some p2 :: Option.some p3 :: crest)
        = Option.some (chroniclePageNames p1 ++ chroniclePageNames p2 ++ chroniclePageNames p3)
    ∧ (∀ n : String,
        n ∈ (get_existing_rule_names
              (Option.some p1 :: Option.some p2 :: Option.some p3 :: crest)).getD []
          ↔ n ∈ chroniclePageNames p1 ∨ n ∈ chroniclePageNames p2 ∨ n ∈ chroniclePageNames p3)
    ∧ get_files_from_bitbucket content (Option.some q1 :: Option.some q2 :: Option.some q3 :: brest)
        = Option.some
            (pageCandidates content q1 ++ pageCandidates content q2 ++ pageCandidates content q3) := by
  refine ⟨fun p rest acc first => rfl, fun q rest acc => rfl, ?_, ?_, ?_⟩
  · simp [get_existing_rule_names, chronicleLoop, hp1, hp2, hp3]
  · simp [get_existing_rule_names, chronicleLoop, hp1, hp2, hp3, List.mem_append, or_assoc]
  · simp [get_files_from_bitbucket, bbLoop, hq1, hq2, hq3]

theorem C7_witness :
    (∀ (p : ChroniclePage) (rest : List (Option ChroniclePage)) (acc : List String) (first : Bool),
      chronicleLoop (Option.some p :: rest) acc first =
        (if truthyStr p.nextPageToken = true then
          chronicleLoop rest (acc ++ chroniclePageNames p) false
         else Option.some (acc ++ chroniclePageNames p)))
    ∧ (∀ (q : BbPage) (rest : List (Option BbPage)) (acc : List RuleCandidate),
      bbLoop contentW (Option.some q :: rest) acc =
        (if truthyStr q.next = true then bbLoop contentW rest (acc ++ pageCandidates contentW q)
         else Option.some (acc ++ pageCandidates contentW q)))
    ∧ get_existing_rule_names (Option.some cpW1 :: Option.some cpW2 :: Option.some cpW3 :: [])
        = Option.some (chroniclePageNames cpW1 ++ chroniclePageNames cpW2 ++ chroniclePageNames cpW3)
    ∧ (∀ n : String,
        n ∈ (get_existing_rule_names
              (Option.some cpW1 :: Option.some cpW2 :: Option.some cpW3 :: [])).getD []
          ↔ n ∈ chroniclePageNames cpW1 ∨ n ∈ chroniclePageNames cpW2 ∨ n ∈ chroniclePageNames cpW3)
    ∧ get_files_from_bitbucket contentW (Option.some bqW1 :: Option.some bqW2 :: Option.some bqW3 :: [])
        = Option.some
            (pageCandidates contentW bqW1 ++ pageCandidates contentW bqW2
              ++ pageCandidates contentW bqW3) :=
  C7_pagination_termination cpW1 cpW2 cpW3 [] contentW bqW1 bqW2 bqW3 []
    rfl rfl rfl rfl rfl rfl

theorem processRule_processed (e : List String) (v u : String → String → Option HttpResponse)
    (c : Counters) (r : RuleCandidate) :
    (processRule e v u c r).1.processed = c.processed + 1 := by
  by_cases h1 : r.name ∈ e
  · simp [processRule, h1]
  · by_cases h2 : verify_rule (v r.name r.text) = true
    · by_cases h3 : upload_rule (u r.name r.text) = true
      · simp [processRule, h1, h2, h3]
      · simp [processRule, h1, h2, h3]
    · simp [processRule, h1, h2]

theorem processRule_counterSum (e : List String) (v u : String → String → Option HttpResponse)
    (c : Counters) (r : RuleCandidate) :
    counterSum (processRule e v u c r).1 = counterSum c + 1 := by
  by_cases h1 : r.name ∈ e
  · simp [processRule, h1, counterSum]; omega
  · by_cases h2 : verify_rule (v r.name r.text) = true
    · by_cases h3 : upload_rule (u r.name r.text) = true
      · simp [processRule, h1, h2, h3, counterSum]; omega
      · simp [processRule, h1, h2, h3, counterSum]; omega
    · simp [processRule, h1, h2, counterSum]; omega

theorem runLoopFrom_invariant (e : List String) (v u : String → String → Option HttpResponse)
    (rules : List RuleCandidate) :
    ∀ c tr, c.processed = counterSum c →
      (runLoopFrom e v u c tr rules).1.processed = counterSum (runLoopFrom e v u c tr rules).1 := by
  induction rules with
  | nil => intro c tr hc; exact hc
  | cons r rs ih =>
    intro c tr hc
    refine ih (processRule e v u c r).1 (tr ++ (processRule e v u c r).2) ?_
    rw [processRule_processed, processRule_counterSum, hc]

/-- C9: after every prefix of the candidate list has been handled (and in
particular at the end of the run) the processed counter equals the sum of
the skipped, uploaded, failed-verification and failed-upload counters —
each processed candidate lands in exactly one outcome bucket. -/
theorem C9_outcome_partition (existing : List String)
    (vresp uresp : String → String → Option HttpResponse)
    (rules : List RuleCandidate) (k : Nat) :
    (runLoop existing vresp uresp (List.take k rules)).1.processed
      = (runLoop existing vresp uresp (List.take k rules)).1.skipped
        + (runLoop existing vresp uresp (List.take k rules)).1.uploaded
        + (runLoop existing vresp uresp (List.take k rules)).1.failed_verification
        + (runLoop existing vresp uresp (List.take k rules)).1.failed_upload :=
  runLoopFrom_invariant existing vresp uresp (List.take k rules) initCounters [] rfl

theorem processRule_trace_indep (e : List String) (v u : String → String → Option HttpResponse)
    (c c2 : Counters) (r : RuleCandidate) :
    (processRule e v u c r).2 = (processRule e v u c2 r).2 := by
  by_cases h1 : r.name ∈ e
  · simp [processRule, h1]
  · by_cases h2 : verify_rule (v r.name r.text) = true
    · by_cases h3 : upload_rule (u r.name r.text) = true
      · simp [processRule, h1, h2, h3]
      · simp [processRule, h1, h2, h3]
    · simp [processRule, h1, h2]

theorem runLoopFrom_trace (e : List String) (v u : String → String → Option HttpResponse)
    (rules : List RuleCandidate) :
    ∀ c tr, (runLoopFrom e v u c tr rules).2
      = tr ++ rules.flatMap (fun r => (processRule e v u initCounters r).2) := by
  induction rules with
  | nil => intro c tr; simp [runLoopFrom]
  | cons r rs ih =>
    intro c tr
    show (runLoopFrom e v u (processRule e v u c r).1 (tr ++ (processRule e v u c r).2) rs).2 = _
    rw [ih, processRule_trace_indep e v u c initCounters r]
    simp [List.flatMap_cons, List.append_assoc]

/-- C3: for a candidate whose name is not in the existing set, the loop
body calls verify exactly once, and calls upload exactly once after it
when (and only when) verify succeeded; the whole run's call history is the
concatenation of each candidate's block, so no remote call is ever
repeated for a candidate. -/
theorem C3_verify_before_upload (existing : List String)
    (vresp uresp : String → String → Option HttpResponse)
    (c : Counters) (rules : List RuleCandidate) (r : RuleCandidate)
    (h : r.name ∉ existing) :
    (processRule existing vresp uresp c r).2
      = (if verify_rule (vresp r.name r.text) = true
         then [CallEvent.verifyCall r.name, CallEvent.uploadCall r.name]
         else [CallEvent.verifyCall r.name])
    ∧ (runLoop existing vresp uresp rules).2
        = rules.flatMap (fun x => (processRule existing vresp uresp c x).2) := by
  constructor
  · by_cases h2 : verify_rule (vresp r.name r.text) = true
    · by_cases h3 : upload_rule (uresp r.name r.text) = true
      · simp [processRule, h, h2, h3]
      · simp [processRule, h, h2, h3]
    · simp [processRule, h, h2]
  · rw [runLoop, runLoopFrom_trace, List.nil_append]
    congr 1
    funext x
    exact processRule_trace_indep existing vresp uresp initCounters c x

theorem countEvent_append (a b : List CallEvent) (ev : CallEvent) :
    countEvent (a ++ b) ev = countEvent a ev + countEvent b ev := by
  simp [countEvent, List.filter_append]

theorem countEvent_flatMap_zero (f : RuleCandidate → List CallEvent) (ev : CallEvent) :
    ∀ rules : List RuleCandidate, (∀ r ∈ rules, countEvent (f r) ev = 0) →
      countEvent (rules.flatMap f) ev = 0 := by
  intro rules
  induction rules with
  | nil => intro _; simp [countEvent]
  | cons r rs ih =>
    intro h
    rw [List.flatMap_cons, countEvent_append, h r (List.mem_cons_self r rs),
      ih (fun q hq => h q (List.mem_cons_of_mem r hq))]

theorem countEvent_processRule_of_mem (e : List String)
    (v u : String → String → Option HttpResponse) (c : Counters) (r : RuleCandidate)
    (name : String) (hname : name ∈ e) :
    countEvent (processRule e v u c r).2 (CallEvent.verifyCall name) = 0
    ∧ countEvent (processRule e v u c r).2 (CallEvent.uploadCall name) = 0 := by
  by_cases hr : r.name ∈ e
  · simp [processRule, hr, countEvent]
  · have hne : r.name ≠ name := fun hEq => hr (hEq ▸ hname)
    by_cases h2 : verify_rule (v r.name r.text) = true
    · by_cases h3 : upload_rule (u r.name r.text) = true
      · constructor <;> simp [processRule, hr, h2, h3, countEvent, hne]
      · constructor <;> simp [processRule, hr, h2, h3, countEvent, hne]
    · constructor <;> simp [processRule, hr, h2, countEvent, hne]

theorem processRule_skipped (e : List String) (v u : String → String → Option HttpResponse)
    (c : Counters) (r : RuleCandidate) :
    (processRule e v u c r).1.skipped
      = (if r.name ∈ e then c.skipped + 1 else c.skipped) := by
  by_cases h1 : r.name ∈ e
  · simp [processRule, h1]
  · by_cases h2 : verify_rule (v r.name r.text) = true
    · by_cases h3 : upload_rule (u r.name r.text) = true
      · simp [processRule, h1, h2, h3]
      · simp [processRule, h1, h2, h3]
    · simp [processRule, h1, h2]

theorem runLoopFrom_skipped (e : List String) (v u : String → String → Option HttpResponse)
    (rules : List RuleCandidate) :
    ∀ c tr, (runLoopFrom e v u c tr rules).1.skipped
      = c.skipped + (rules.filter (fun r => decide (r.name ∈ e))).length := by
  induction rules with
  | nil => intro c tr; simp [runLoopFrom]
  | cons r rs ih =>
    intro c tr
    show (runLoopFrom e v u (processRule e v u c r).1 (tr ++ (processRule e v u c r).2) rs).1.skipped = _
    rw [ih, processRule_skipped]
    by_cases h1 : r.name ∈ e
    · simp [h1]; omega
    · simp [h1]

/-- C2: for every name in the existing-rule set, the run makes no verify
call and no upload call for that name (every candidate bearing it is
skipped without touching the remote service), and the skipped counter ends
up equal to the number of candidates whose name is in the existing set. -/
theorem C2_existing_skipped (existing : List String)
    (vresp uresp : String → String → Option HttpResponse)
    (rules : List RuleCandidate) (name : String) (h : name ∈ existing) :
    countEvent (runLoop existing vresp uresp rules).2 (CallEvent.verifyCall name) = 0
    ∧ countEvent (runLoop existing vresp uresp rules).2 (CallEvent.uploadCall name) = 0
    ∧ (runLoop existing vresp uresp rules).1.skipped
        = (rules.filter (fun r => decide (r.name ∈ existing))).length := by
  refine ⟨?_, ?_, ?_⟩
  · rw [runLoop, runLoopFrom_trace, List.nil_append]
    exact countEvent_flatMap_zero _ _ rules
      (fun r _ => (countEvent_processRule_of_mem existing vresp uresp initCounters r name h).1)
  · rw [runLoop, runLoopFrom_trace, List.nil_append]
    exact countEvent_flatMap_zero _ _ rules
      (fun r _ => (countEvent_processRule_of_mem existing vresp uresp initCounters r name h).2)
  · rw [runLoop, runLoopFrom_skipped]
    simp [initCounters]

/-- C1: whenever both listings succeed (so the run reaches the
orchestration loop, or exits early on an empty candidate list), the exit
status is 1 exactly when the loop's failed-verification and failed-upload
counters sum to something positive — independently of the skipped and
uploaded counters — and an empty candidate list exits with 0. -/
theorem C1_exit_status (cp : List (Option ChroniclePage)) (bp : List (Option BbPage))
    (content : String → ContentResult) (vresp uresp : String → String → Option HttpResponse)
    (existing : List String) (rules : List RuleCandidate)
    (h1 : get_existing_rule_names cp = Option.some existing)
    (h2 : get_files_from_bitbucket content bp = Option.some rules) :
    (mainRun cp bp content vresp uresp = 1 ↔
      0 < (runLoop existing vresp uresp rules).1.failed_verification
          + (runLoop existing vresp uresp rules).1.failed_upload)
    ∧ (rules = [] → mainRun cp bp content vresp uresp = 0) := by
  constructor
  · cases rules with
    | nil => simp [mainRun, h1, h2, runLoop, runLoopFrom, initCounters]
    | cons r rs =>
      by_cases hc : (runLoop existing vresp uresp (r :: rs)).1.failed_verification > 0
          ∨ (runLoop existing vresp uresp (r :: rs)).1.failed_upload > 0
      · have hm : mainRun cp bp content vresp uresp = 1 := by
          simp [mainRun, h1, h2, hc]
        rw [hm]
        constructor
        · intro _; omega
        · intro _; rfl
      · have hm : mainRun cp bp content vresp uresp = 0 := by
          simp [mainRun, h1, h2, hc]
        rw [hm]
        constructor
        · intro hx; omega
        · intro hx; omega
  · intro hnil
    subst hnil
    simp [mainRun, h1, h2]

theorem C1_witness :
    (mainRun [Option.some (ChroniclePage.mk [] Option.none)]
        [Option.some (BbPage.mk [BbEntry.mk "commit_file" "rules/w1.yaral"] Option.none)]
        (fun _ => ContentResult.text "rule w1") (fun _ _ => Option.none)
        (fun _ _ => Option.none) = 1 ↔
      0 < (runLoop [] (fun _ _ => Option.none) (fun _ _ => Option.none)
            [RuleCandidate.mk "w1" "rule w1" "rules/w1.yaral"]).1.failed_verification
          + (runLoop [] (fun _ _ => Option.none) (fun _ _ => Option.none)
            [RuleCandidate.mk "w1" "rule w1" "rules/w1.yaral"]).1.failed_upload)
    ∧ ([RuleCandidate.mk "w1" "rule w1" "rules/w1.yaral"] = ([] : List RuleCandidate) →
        mainRun [Option.some (ChroniclePage.mk [] Option.none)]
          [Option.some (BbPage.mk [BbEntry.mk "commit_file" "rules/w1.yaral"] Option.none)]
          (fun _ => ContentResult.text "rule w1") (fun _ _ => Option.none)
          (fun _ _ => Option.none) = 0) :=
  C1_exit_status _ _ _ _ _ [] [RuleCandidate.mk "w1" "rule w1" "rules/w1.yaral"] rfl rfl

theorem C2_witness :
    countEvent (runLoop ["ruleA"] vrespW vrespW
        [RuleCandidate.mk "ruleA" "text1" "rules/ruleA.yaral"]).2
        (CallEvent.verifyCall "ruleA") = 0
    ∧ countEvent (runLoop ["ruleA"] vrespW vrespW
        [RuleCandidate.mk "ruleA" "text1" "rules/ruleA.yaral"]).2
        (CallEvent.uploadCall "ruleA") = 0
    ∧ (runLoop ["ruleA"] vrespW vrespW
        [RuleCandidate.mk "ruleA" "text1" "rules/ruleA.yaral"]).1.skipped
        = (List.filter (fun r => decide (r.name ∈ ["ruleA"]))
            [RuleCandidate.mk "ruleA" "text1" "rules/ruleA.yaral"]).length :=
  C2_existing_skipped ["ruleA"] vrespW vrespW
    [RuleCandidate.mk "ruleA" "text1" "rules/ruleA.yaral"] "ruleA" (by decide)

theorem C3_witness :
    (processRule [] vrespW vrespW initCounters
        (RuleCandidate.mk "ruleB" "text2" "rules/ruleB.yaral")).2
      = (if verify_rule (vrespW "ruleB" "text2") = true
         then [CallEvent.verifyCall "ruleB", CallEvent.uploadCall "ruleB"]
         else [CallEvent.verifyCall "ruleB"])
    ∧ (runLoop [] vrespW vrespW [RuleCandidate.mk "ruleB" "text2" "rules/ruleB.yaral"]).2
        = [RuleCandidate.mk "ruleB" "text2" "rules/ruleB.yaral"].flatMap
            (fun x => (processRule [] vrespW vrespW initCounters x).2) :=
  C3_verify_before_upload [] vrespW vrespW initCounters
    [RuleCandidate.mk "ruleB" "text2" "rules/ruleB.yaral"]
    (RuleCandidate.mk "ruleB" "text2" "rules/ruleB.yaral") (by decide)
